import Mathlib

/-! ## Definitions: shallow embedding of the sources (and the
spec-modelled backend parts, marked in their doc comments) -/

/-- Readiness tiers of the specification: Ready / Gap / Discard. -/
inductive Tier where
  | Ready : Tier
  | Gap : Tier
  | Discard : Tier
deriving DecidableEq, Repr

/-- The Ready threshold used by `fetchJobs`: `job.score >= 0.85`
(the literal `0.85` read as the exact rational 85/100). -/
def T_ready : ℚ := mkRat 85 100

/-- The discard threshold used by `fetchJobs`: `job.score >= 0.4`. -/
def T_discard : ℚ := mkRat 4 10

/-- Tier classification, from the conditional chain of `fetchJobs`:
`job.score >= 0.85 ? "Ready" : job.score >= 0.4 ? "Gap Detected" : "Low Match"`. -/
def classify (score : ℚ) : Tier :=
  if T_ready ≤ score then Tier.Ready
  else if T_discard ≤ score then Tier.Gap
  else Tier.Discard

/-- The `status` string computed by `fetchJobs`. -/
def jobStatus (score : ℚ) : String :=
  if T_ready ≤ score then "Ready"
  else if T_discard ≤ score then "Gap Detected"
  else "Low Match"

/-- The `tier` letter computed by `fetchJobs`
(`"A"` / `"B"` / `"C"` at the same thresholds). -/
def jobTierLetter (score : ℚ) : String :=
  if T_ready ≤ score then "A"
  else if T_discard ≤ score then "B"
  else "C"

/-- A node of a `RoadmapGraph` (interface `GraphNode`). -/
structure GraphNode where
  id : String
  label : String
  day : Nat
  type : String
  description : String
deriving DecidableEq, Repr

/-- An edge of a `RoadmapGraph` (interface `GraphEdge`). -/
structure GraphEdge where
  source : String
  target : String
deriving DecidableEq, Repr

/-- A roadmap graph (interface `RoadmapGraph`). -/
structure RoadmapGraph where
  nodes : List GraphNode
  edges : List GraphEdge
deriving DecidableEq, Repr

/-- The `CompletionState` of the component: a JavaScript object mapping
node ids to booleans, embedded as an association list with unique keys
in insertion order. -/
abbrev CompletionState : Type := List (String × Bool)

/-- Reading `completedNodes[nodeId]` coerced to a boolean: a missing key
is `undefined`, which is falsy. -/
def getKey (m : CompletionState) (k : String) : Bool :=
  match m.find? (fun p => p.1 == k) with
  | some p => p.2
  | none => false

/-- The spread update `{ ...completedNodes, [nodeId]: v }`: replaces the
value in place when the key exists, appends otherwise. -/
def setKey (m : CompletionState) (k : String) (v : Bool) : CompletionState :=
  if m.any (fun p => p.1 == k) then
    m.map (fun p => if p.1 == k then (k, v) else p)
  else
    m ++ [(k, v)]

/-- The count `Object.values(completedNodes).filter(Boolean).length`. -/
def completedCount (m : CompletionState) : Nat :=
  (m.filter (fun p => p.2)).length

/-- The percentage `totalNodes > 0 ? Math.round((completedCount / totalNodes) * 100) : 0`,
with `Math.round` modelled as round-half-up on the exact rational:
`Math.round(x) = ⌊x + 1/2⌋`, and `⌊100*c/t + 1/2⌋ = (200*c + t) / (2*t)`
in natural division. -/
def completionPercentage (totalNodes completed : Nat) : Nat :=
  if totalNodes > 0 then (200 * completed + totalNodes) / (2 * totalNodes) else 0

/-- The component state relevant to the completion trigger, plus an
instrumentation counter `fireCount` recording how many times the
`completeRoadmap` side effect has been invoked. -/
structure RoadmapState where
  completedNodes : CompletionState
  hasTriggeredCompletion : Bool
  fireCount : Nat
deriving DecidableEq, Repr

/-- The completion-trigger `useEffect`: when
`completionPercentage === 100 && !hasTriggeredCompletion && savedJobId
&& userId && totalNodes > 0` it sets the flag and calls
`completeRoadmap` (counted by `fireCount`). -/
def completionEffect (totalNodes : Nat) (savedJobId userId : Bool)
    (s : RoadmapState) : RoadmapState :=
  if (completionPercentage totalNodes (completedCount s.completedNodes) == 100)
      && !s.hasTriggeredCompletion && savedJobId && userId
      && (0 < totalNodes : Bool) then
    { s with hasTriggeredCompletion := true, fireCount := s.fireCount + 1 }
  else s

/-- The pure state change of `handleNodeComplete`:
`newState = { ...completedNodes, [nodeId]: !wasCompleted }`. -/
def nodeUpdate (m : CompletionState) (nodeId : String) : CompletionState :=
  setKey m nodeId (!(getKey m nodeId))

/-- One node-completion interaction: `handleNodeComplete` applies the
toggle, and reverts it when the backend `updateProgress` call fails
(the `ok` flag); afterwards the completion-trigger effect re-runs on
the new state. -/
def stepToggle (totalNodes : Nat) (savedJobId userId : Bool)
    (s : RoadmapState) (a : String × Bool) : RoadmapState :=
  let m := if a.2 then nodeUpdate s.completedNodes a.1 else s.completedNodes
  completionEffect totalNodes savedJobId userId { s with completedNodes := m }

/-- Running a sequence of node-completion updates in one mounted
component: the trigger effect also runs once on the initial state
(React runs effects after the first render). -/
def runUpdates (totalNodes : Nat) (savedJobId userId : Bool)
    (s : RoadmapState) (actions : List (String × Bool)) : RoadmapState :=
  actions.foldl (stepToggle totalNodes savedJobId userId)
    (completionEffect totalNodes savedJobId userId s)

/-- The pure completion-map evolution of a sequence of successful or
failed toggles, without the trigger effect (which never modifies the
map). -/
def applyToggles (m : CompletionState) (actions : List (String × Bool)) :
    CompletionState :=
  actions.foldl (fun m a => if a.2 then nodeUpdate m a.1 else m) m

/-- A session-level action: a node toggle (with the success flag of the
backend `updateProgress` call) or a remount of the component, which
reloads the persisted progress and re-initializes `hasTriggeredCompletion`
from the all-complete check of the progress-load `useEffect`
(`totalNodes > 0 && completedCount === totalNodes`). -/
inductive SessionAct where
  | toggle (nodeId : String) (ok : Bool) : SessionAct
  | remount : SessionAct
deriving DecidableEq, Repr

/-- One session-level step.  A successful toggle also persists the new
value, so the component map always equals the persisted map and a
remount reloads the same completion map; only the in-memory flag is
re-derived. -/
def stepSession (totalNodes : Nat) (savedJobId userId : Bool)
    (s : RoadmapState) : SessionAct → RoadmapState
  | SessionAct.toggle nodeId ok => stepToggle totalNodes savedJobId userId s (nodeId, ok)
  | SessionAct.remount =>
      completionEffect totalNodes savedJobId userId
        { s with hasTriggeredCompletion :=
            (0 < totalNodes : Bool) && (completedCount s.completedNodes == totalNodes) }

/-- Running a sequence of session-level actions. -/
def runSession (totalNodes : Nat) (savedJobId userId : Bool)
    (s : RoadmapState) (actions : List SessionAct) : RoadmapState :=
  actions.foldl (stepSession totalNodes savedJobId userId)
    (completionEffect totalNodes savedJobId userId s)

/-- The graph-view variant of the `Roadmap` component renders
`const days = [1, 2, 3]; const nodesByDay = days.map(day =>
nodes.filter(n => n.day === day));` — only these nodes get a
completion checkbox. -/
def renderedNodes (g : RoadmapGraph) : List GraphNode :=
  g.nodes.filter (fun n => n.day == 1 || n.day == 2 || n.day == 3)

/-- Ids of the nodes the graph view renders. -/
def renderedIds (g : RoadmapGraph) : List String :=
  (renderedNodes g).map (fun n => n.id)

/-- One edge step of a roadmap graph, from source id to target id. -/
def EdgeStep (g : RoadmapGraph) (a b : String) : Prop :=
  ∃ e ∈ g.edges, e.source = a ∧ e.target = b

/-- A graph is acyclic when no id reaches itself along a nonempty edge
path. -/
def Acyclic (g : RoadmapGraph) : Prop :=
  ∀ a : String, ¬ Relation.TransGen (EdgeStep g) a a

/-- The ids of the nodes of a graph. -/
def nodeIds (g : RoadmapGraph) : List String :=
  g.nodes.map (fun n => n.id)

/-- The day of the node with a given id, `0` when absent. -/
def dayOf (g : RoadmapGraph) (id : String) : Nat :=
  match g.nodes.find? (fun n => n.id == id) with
  | some n => n.day
  | none => 0

/-- Modelled from the spec: the topological-sort (Kahn) peeling loop of
the synthesizer's validation pass, which is backend code absent from
`src/`.  Repeatedly removes a remaining id with no incoming edge from a
remaining source; succeeds when all ids are removed. -/
def kahnPeel (edges : List GraphEdge) : Nat → List String → Bool
  | 0, remaining => remaining.isEmpty
  | fuel + 1, remaining =>
    if remaining.isEmpty then true
    else
      match remaining.find?
          (fun v => !(edges.any (fun e => e.target == v && remaining.contains e.source))) with
      | some v => kahnPeel edges fuel (remaining.erase v)
      | none => false

/-- Modelled from the spec: the validation pass of §4.3/§9 run by the
synthesizer (backend code absent from `src/`) before a generated graph
is accepted: every edge endpoint must reference an existing node id,
every edge must satisfy `day(source) ≤ day(target)`, and the
topological-sort check must succeed. -/
def validateRoadmapGraph (g : RoadmapGraph) : Bool :=
  (g.edges.all (fun e => (nodeIds g).contains e.source && (nodeIds g).contains e.target))
  && (g.edges.all (fun e => dayOf g e.source ≤ dayOf g e.target))
  && kahnPeel g.edges (nodeIds g).length (nodeIds g)

/-- Modelled from the spec: acceptance of a synthesized graph with one
bounded regeneration attempt — accept the first candidate if it
validates, otherwise the regenerated candidate if it validates,
otherwise degrade to `roadmap = null`. -/
def acceptGraph (first retry : RoadmapGraph) : Option RoadmapGraph :=
  if validateRoadmapGraph first then some first
  else if validateRoadmapGraph retry then some retry
  else none

/-- Modelled from the spec: a `JobEnrichment` — roadmap (nullable) and
the pending flag of an item degraded after synthesis failure
(`"roadmap_pending"`, rendered by `JobDetailPage` as
"Roadmap generation pending...").  The enrichment pipeline itself is
backend code absent from `src/`. -/
structure JobEnrichment where
  tier : Tier
  roadmap : Option RoadmapGraph
  roadmapPending : Bool
deriving DecidableEq, Repr

/-- Modelled from the spec: enriching one retained item.  Only
Gap-tier items receive the synthesizer's result (`none` when synthesis
failed, in which case the item is flagged pending); Ready and Discard
items never carry a roadmap. -/
def enrichItem (tier : Tier) (synthesized : Option RoadmapGraph) : JobEnrichment :=
  if tier = Tier.Gap then
    { tier := tier, roadmap := synthesized,
      roadmapPending := synthesized.isNone }
  else
    { tier := tier, roadmap := none, roadmapPending := false }

/-- Modelled from the spec: the orchestrator's enrichment fan-out over
the retained items, each with the outcome its own synthesis call
produced; every item yields an independent success-or-degraded result
and the run never aborts. -/
def enrichRun (items : List (Tier × Option RoadmapGraph)) : List JobEnrichment :=
  items.map (fun it => enrichItem it.1 it.2)

/-- The slice of `SessionContext` state that `runStrategy` reads and
writes.  `StrategyJob` entries are opaque to the caching logic and
embedded as an arbitrary payload string. -/
structure SessionState where
  sessionId : Option String
  profile : Option (List String)
  strategyJobs : List String
  error : Option String
deriving DecidableEq, Repr

/-- The response of `api.matchJobs`: a status string and the `matches`
field, `none` when the field is missing or null (an empty array is
truthy in JavaScript and is modelled as `some []`). -/
structure MatchResponse where
  status : String
  -- the source field is named `matches`, a reserved word in Lean
  jobMatches : Option (List String)
deriving DecidableEq, Repr

/-- The result of one `runStrategy` call: the new state, the returned
boolean, and an instrumentation flag recording whether the call
recomputed (i.e. reached the `api.matchJobs` call) instead of
short-circuiting. -/
structure RunStrategyResult where
  state : SessionState
  returned : Bool
  recomputed : Bool
deriving DecidableEq, Repr

/-- The `runStrategy` action of `SessionContext`: fails when session or profile is
missing; short-circuits returning `true` when
`strategyJobs.length > 0 && !forceRefresh`; otherwise calls
`api.matchJobs` (whose response is passed in as `response`) and commits
`response.matches` when `response.status === "success" &&
response.matches`. -/
def runStrategy (s : SessionState) (forceRefresh : Bool)
    (response : MatchResponse) : RunStrategyResult :=
  match s.sessionId, s.profile with
  | none, _ =>
    { state := { s with error := some "Session or profile missing" },
      returned := false, recomputed := false }
  | some _, none =>
    { state := { s with error := some "Session or profile missing" },
      returned := false, recomputed := false }
  | some _, some _ =>
    if s.strategyJobs.length > 0 && !forceRefresh then
      { state := s, returned := true, recomputed := false }
    else
      match response.jobMatches with
      | some ms =>
        if response.status == "success" then
          { state := { s with strategyJobs := ms, error := none },
            returned := true, recomputed := true }
        else
          { state := { s with error := none }, returned := false, recomputed := true }
      | none =>
        { state := { s with error := none }, returned := false, recomputed := true }

/-- An entry of the `BLIND_75_PROBLEMS` reference list. -/
structure Blind75Problem where
  id : Nat
  title : String
  category : String
  difficulty : String
deriving DecidableEq, Repr

/-- The `BLIND_75_PROBLEMS` constant of the route. -/
def BLIND_75_PROBLEMS : List Blind75Problem := [
  ⟨1, "Two Sum", "Array", "Easy"⟩,
  ⟨121, "Best Time to Buy and Sell Stock", "Array", "Easy"⟩,
  ⟨217, "Contains Duplicate", "Array", "Easy"⟩,
  ⟨238, "Product of Array Except Self", "Array", "Medium"⟩,
  ⟨53, "Maximum Subarray", "Array", "Medium"⟩,
  ⟨152, "Maximum Product Subarray", "Array", "Medium"⟩,
  ⟨153, "Find Minimum in Rotated Sorted Array", "Array", "Medium"⟩,
  ⟨33, "Search in Rotated Sorted Array", "Array", "Medium"⟩,
  ⟨15, "3Sum", "Array", "Medium"⟩,
  ⟨11, "Container With Most Water", "Array", "Medium"⟩,
  ⟨371, "Sum of Two Integers", "Binary", "Medium"⟩,
  ⟨191, "Number of 1 Bits", "Binary", "Easy"⟩,
  ⟨338, "Counting Bits", "Binary", "Easy"⟩,
  ⟨268, "Missing Number", "Binary", "Easy"⟩,
  ⟨190, "Reverse Bits", "Binary", "Easy"⟩,
  ⟨70, "Climbing Stairs", "Dynamic Programming", "Easy"⟩,
  ⟨322, "Coin Change", "Dynamic Programming", "Medium"⟩,
  ⟨300, "Longest Increasing Subsequence", "Dynamic Programming", "Medium"⟩,
  ⟨1143, "Longest Common Subsequence", "Dynamic Programming", "Medium"⟩,
  ⟨139, "Word Break", "Dynamic Programming", "Medium"⟩,
  ⟨39, "Combination Sum", "Dynamic Programming", "Medium"⟩,
  ⟨198, "House Robber", "Dynamic Programming", "Medium"⟩,
  ⟨213, "House Robber II", "Dynamic Programming", "Medium"⟩,
  ⟨91, "Decode Ways", "Dynamic Programming", "Medium"⟩,
  ⟨62, "Unique Paths", "Dynamic Programming", "Medium"⟩,
  ⟨55, "Jump Game", "Dynamic Programming", "Medium"⟩,
  ⟨133, "Clone Graph", "Graph", "Medium"⟩,
  ⟨207, "Course Schedule", "Graph", "Medium"⟩,
  ⟨417, "Pacific Atlantic Water Flow", "Graph", "Medium"⟩,
  ⟨200, "Number of Islands", "Graph", "Medium"⟩,
  ⟨128, "Longest Consecutive Sequence", "Graph", "Medium"⟩,
  ⟨269, "Alien Dictionary", "Graph", "Hard"⟩,
  ⟨261, "Graph Valid Tree", "Graph", "Medium"⟩,
  ⟨323, "Number of Connected Components", "Graph", "Medium"⟩,
  ⟨57, "Insert Interval", "Interval", "Medium"⟩,
  ⟨56, "Merge Intervals", "Interval", "Medium"⟩,
  ⟨435, "Non-overlapping Intervals", "Interval", "Medium"⟩,
  ⟨252, "Meeting Rooms", "Interval", "Easy"⟩,
  ⟨253, "Meeting Rooms II", "Interval", "Medium"⟩,
  ⟨206, "Reverse Linked List", "Linked List", "Easy"⟩,
  ⟨141, "Linked List Cycle", "Linked List", "Easy"⟩,
  ⟨21, "Merge Two Sorted Lists", "Linked List", "Easy"⟩,
  ⟨23, "Merge K Sorted Lists", "Linked List", "Hard"⟩,
  ⟨19, "Remove Nth Node From End", "Linked List", "Medium"⟩,
  ⟨143, "Reorder List", "Linked List", "Medium"⟩,
  ⟨73, "Set Matrix Zeroes", "Matrix", "Medium"⟩,
  ⟨54, "Spiral Matrix", "Matrix", "Medium"⟩,
  ⟨48, "Rotate Image", "Matrix", "Medium"⟩,
  ⟨79, "Word Search", "Matrix", "Medium"⟩,
  ⟨3, "Longest Substring Without Repeating", "String", "Medium"⟩,
  ⟨424, "Longest Repeating Character Replacement", "String", "Medium"⟩,
  ⟨76, "Minimum Window Substring", "String", "Hard"⟩,
  ⟨242, "Valid Anagram", "String", "Easy"⟩,
  ⟨49, "Group Anagrams", "String", "Medium"⟩,
  ⟨20, "Valid Parentheses", "String", "Easy"⟩,
  ⟨125, "Valid Palindrome", "String", "Easy"⟩,
  ⟨5, "Longest Palindromic Substring", "String", "Medium"⟩,
  ⟨647, "Palindromic Substrings", "String", "Medium"⟩,
  ⟨271, "Encode and Decode Strings", "String", "Medium"⟩,
  ⟨104, "Maximum Depth of Binary Tree", "Tree", "Easy"⟩,
  ⟨100, "Same Tree", "Tree", "Easy"⟩,
  ⟨226, "Invert Binary Tree", "Tree", "Easy"⟩,
  ⟨124, "Binary Tree Maximum Path Sum", "Tree", "Hard"⟩,
  ⟨102, "Binary Tree Level Order Traversal", "Tree", "Medium"⟩,
  ⟨297, "Serialize and Deserialize Binary Tree", "Tree", "Hard"⟩,
  ⟨572, "Subtree of Another Tree", "Tree", "Easy"⟩,
  ⟨105, "Construct Binary Tree from Preorder and Inorder", "Tree", "Medium"⟩,
  ⟨98, "Validate Binary Search Tree", "Tree", "Medium"⟩,
  ⟨230, "Kth Smallest Element in a BST", "Tree", "Medium"⟩,
  ⟨235, "LCA of a Binary Search Tree", "Tree", "Medium"⟩,
  ⟨208, "Implement Trie (Prefix Tree)", "Tree", "Medium"⟩,
  ⟨211, "Design Add and Search Words", "Tree", "Medium"⟩,
  ⟨212, "Word Search II", "Tree", "Hard"⟩,
  ⟨347, "Top K Frequent Elements", "Heap", "Medium"⟩,
  ⟨295, "Find Median from Data Stream", "Heap", "Hard"⟩
]

/-- A character of the regex class `[\d,\s]`: a decimal digit, a comma,
or a JavaScript `\s` whitespace character (the ASCII ones plus the
Unicode space characters `\s` matches). -/
def isRegexClassChar (c : Char) : Bool :=
  c.isDigit || c == ',' || c == ' ' || c == '\t' || c == '\n' || c == '\r'
  || c == '\x0b' || c == '\x0c' || c == ' ' || c == ' '
  || (' ' ≤ c && c ≤ ' ') || c == ' ' || c == ' '
  || c == ' ' || c == ' ' || c == '　' || c == '﻿'

/-- The regex search `text.match(/\[[\d,\s]+\]/)`: scanning left to right, a match at a
`[` requires the maximal run of class characters after it to be
nonempty and followed by `]` (the class contains neither bracket, so
backtracking cannot produce any other match).  Returns the content
between the brackets of the first match. -/
def firstBracketMatch : List Char → Option (List Char)
  | [] => none
  | c :: rest =>
    if c == '[' then
      let run := rest.takeWhile isRegexClassChar
      if !run.isEmpty && (rest.drop run.length).head? == some ']' then
        some run
      else
        firstBracketMatch rest
    else
      firstBracketMatch rest

/-- JSON whitespace (RFC 8259): space, tab, line feed, carriage return. -/
def isJsonWs (c : Char) : Bool :=
  c == ' ' || c == '\t' || c == '\n' || c == '\r'

/-- Digits of a natural number literal folded to its value. -/
def digitsToNat (ds : List Char) : Nat :=
  ds.foldl (fun a c => 10 * a + (c.toNat - 48)) 0

/-- Parsing one JSON number made of digits: nonempty, and no leading
zero unless the literal is exactly `0`. -/
def parseJsonNat (cs : List Char) : Option (Nat × List Char) :=
  let ds := cs.takeWhile Char.isDigit
  if ds.isEmpty then none
  else if ds.length > 1 && ds.head? == some '0' then none
  else some (digitsToNat ds, cs.drop ds.length)

/-- Parsing the comma-separated items of a JSON array of digit-only
numbers; the fuel is an upper bound on the recursion depth. -/
def parseJsonItems (bound : Nat) : List Char → Option (List Nat)
  | cs =>
    match bound with
    | 0 => none
    | fuel + 1 =>
      match parseJsonNat cs with
      | none => none
      | some (n, rest) =>
        match rest.dropWhile isJsonWs with
        | [] => some [n]
        | ',' :: rest2 =>
          match parseJsonItems fuel (rest2.dropWhile isJsonWs) with
          | none => none
          | some ns => some (n :: ns)
        | _ => none

/-- The call of `JSON.parse` on `[` ++ content ++ `]` where the content is
drawn from the regex class: succeeds exactly on JSON array syntax
(whitespace-only content is the empty array), `none` models the thrown
`SyntaxError` that the route catches. -/
def parseJsonNatArray (content : List Char) : Option (List Nat) :=
  let cs := content.dropWhile isJsonWs
  if cs.isEmpty then some []
  else parseJsonItems (content.length + 1) cs

/-- The `id`s of `BLIND_75_PROBLEMS`. -/
def blind75Ids : List Nat := BLIND_75_PROBLEMS.map (fun p => p.id)

/-- The route helper `parseGeminiResponse(text, solvedProblemIds)`: extract the first
bracketed digit list, `JSON.parse` it, keep only unsolved Blind 75 ids
(`BLIND_75_PROBLEMS.some(p => p.id === id) &&
!solvedProblemIds.includes(id)`), truncate to 30; any failure yields
the empty list (the catch block and the no-match fallthrough). -/
def parseGeminiResponse (text : String) (solvedProblemIds : List Nat) : List Nat :=
  match firstBracketMatch text.data with
  | none => []
  | some content =>
    match parseJsonNatArray content with
    | none => []
    | some ids =>
      (ids.filter (fun id =>
        BLIND_75_PROBLEMS.any (fun p => p.id == id)
        && !(solvedProblemIds.contains id))).take 30

/-- The at-most-once invariant: the fire counter is tied to the flag. -/
def TrigInv (s : RoadmapState) : Prop :=
  s.fireCount = (if s.hasTriggeredCompletion then 1 else 0)

/-- The fire counter stays at most one from any clean start, triggered
or not. -/
def FireBound (s : RoadmapState) : Prop :=
  s.fireCount ≤ 1 ∧ (s.hasTriggeredCompletion = false → s.fireCount = 0)

/-- The invariant of a graph-view session: keys are duplicate-free ids
of rendered nodes and the effect has never fired. -/
def UIInv (g : RoadmapGraph) (s : RoadmapState) : Prop :=
  ((s.completedNodes.map Prod.fst).Nodup)
  ∧ (∀ x ∈ s.completedNodes.map Prod.fst, x ∈ renderedIds g)
  ∧ s.fireCount = 0

/-! ## Helper lemmas -/

/-- A successful Kahn peel yields a position function that strictly
increases along every edge whose endpoints are still remaining. -/
lemma kahnPeel_topo (edges : List GraphEdge) :
    ∀ (fuel : Nat) (remaining : List String),
      kahnPeel edges fuel remaining = true →
      ∃ f : String → Nat, ∀ e ∈ edges,
        e.source ∈ remaining → e.target ∈ remaining → f e.source < f e.target := by
  intro fuel
  induction fuel with
  | zero =>
    intro remaining h
    have hre : remaining = [] := by simpa [kahnPeel] using h
    exact ⟨fun _ => 0, fun e he hs ht => by simp [hre] at hs⟩
  | succ fuel ih =>
    intro remaining h
    by_cases hre : remaining.isEmpty
    · have hre2 : remaining = [] := by simpa using hre
      exact ⟨fun _ => 0, fun e he hs ht => by simp [hre2] at hs⟩
    · rw [kahnPeel, if_neg (by simp [hre])] at h
      cases hfind : remaining.find?
          (fun v => !(edges.any (fun e => e.target == v && remaining.contains e.source))) with
      | none => rw [hfind] at h; exact absurd h (by simp)
      | some v =>
        rw [hfind] at h
        obtain ⟨f, hf⟩ := ih (remaining.erase v) h
        have hvmem : v ∈ remaining := List.mem_of_find?_eq_some hfind
        have hvpred := List.find?_some hfind
        refine ⟨fun x => if x = v then 0 else f x + 1, fun e he hs ht => ?_⟩
        by_cases hts : e.target = v
        · exfalso
          have hany : edges.any (fun e2 => e2.target == v && remaining.contains e2.source) = true :=
            List.any_eq_true.mpr ⟨e, he, by
              simp only [Bool.and_eq_true, beq_iff_eq]
              exact ⟨hts, List.elem_eq_true_of_mem hs⟩⟩
          rw [hany] at hvpred
          exact absurd hvpred (by simp)
        · by_cases hss : e.source = v
          · simp [hss, hts]
          · have hs2 : e.source ∈ remaining.erase v := (List.mem_erase_of_ne hss).mpr hs
            have ht2 : e.target ∈ remaining.erase v := (List.mem_erase_of_ne hts).mpr ht
            have := hf e he hs2 ht2
            simp only [if_neg hss, if_neg hts]
            omega

/-- A position function that strictly increases along every edge step
rules out cycles. -/
lemma topoOrder_acyclic (g : RoadmapGraph) (f : String → Nat)
    (hf : ∀ a b, EdgeStep g a b → f a < f b) : Acyclic g := by
  intro a hcyc
  have key : ∀ x y, Relation.TransGen (EdgeStep g) x y → f x < f y := by
    intro x y h
    induction h with
    | single h1 => exact hf _ _ h1
    | tail _ h1 ih => exact ih.trans (hf _ _ h1)
  exact lt_irrefl _ (key a a hcyc)

/-- The trigger effect never modifies the completion map. -/
lemma completionEffect_completedNodes (t : Nat) (sv uv : Bool) (s : RoadmapState) :
    (completionEffect t sv uv s).completedNodes = s.completedNodes := by
  unfold completionEffect
  split <;> rfl

/-- The completion map after one interaction step. -/
lemma stepToggle_completedNodes (t : Nat) (sv uv : Bool) (s : RoadmapState)
    (a : String × Bool) :
    (stepToggle t sv uv s a).completedNodes =
      if a.2 then nodeUpdate s.completedNodes a.1 else s.completedNodes := by
  unfold stepToggle
  rw [completionEffect_completedNodes]

/-- The completion map of a fold of interaction steps is the pure
toggle evolution. -/
lemma foldl_stepToggle_completedNodes (t : Nat) (sv uv : Bool)
    (l : List (String × Bool)) :
    ∀ s : RoadmapState,
      (l.foldl (stepToggle t sv uv) s).completedNodes =
        applyToggles s.completedNodes l := by
  induction l with
  | nil => intro s; rfl
  | cons a l ih =>
    intro s
    rw [List.foldl_cons, ih]
    unfold applyToggles
    rw [List.foldl_cons]
    congr 1
    rw [stepToggle_completedNodes]

/-- The completion map after a run is the pure toggle evolution of the
initial map. -/
lemma runUpdates_completedNodes (t : Nat) (sv uv : Bool) (s : RoadmapState)
    (l : List (String × Bool)) :
    (runUpdates t sv uv s l).completedNodes = applyToggles s.completedNodes l := by
  unfold runUpdates
  rw [foldl_stepToggle_completedNodes, completionEffect_completedNodes]

/-- Once the completion flag is set, the effect keeps it set. -/
lemma completionEffect_triggered_mono (t : Nat) (sv uv : Bool) (s : RoadmapState)
    (h : s.hasTriggeredCompletion = true) :
    (completionEffect t sv uv s).hasTriggeredCompletion = true := by
  unfold completionEffect
  split <;> simp [h]

/-- Once the completion flag is set, an interaction step keeps it set. -/
lemma stepToggle_triggered_mono (t : Nat) (sv uv : Bool) (s : RoadmapState)
    (a : String × Bool) (h : s.hasTriggeredCompletion = true) :
    (stepToggle t sv uv s a).hasTriggeredCompletion = true := by
  unfold stepToggle
  exact completionEffect_triggered_mono _ _ _ _ h

/-- Once the completion flag is set, any fold of interaction steps
keeps it set. -/
lemma foldl_stepToggle_triggered_mono (t : Nat) (sv uv : Bool)
    (l : List (String × Bool)) :
    ∀ s : RoadmapState, s.hasTriggeredCompletion = true →
      (l.foldl (stepToggle t sv uv) s).hasTriggeredCompletion = true := by
  induction l with
  | nil => intro s h; exact h
  | cons a l ih =>
    intro s h
    rw [List.foldl_cons]
    exact ih _ (stepToggle_triggered_mono _ _ _ _ _ h)

/-- The trigger effect preserves the at-most-once invariant. -/
lemma completionEffect_TrigInv (t : Nat) (sv uv : Bool) (s : RoadmapState)
    (h : TrigInv s) : TrigInv (completionEffect t sv uv s) := by
  unfold TrigInv at h ⊢
  unfold completionEffect
  split
  case isTrue hc =>
    simp only [Bool.and_eq_true, Bool.not_eq_true'] at hc
    have hflag : s.hasTriggeredCompletion = false := hc.1.1.1.2
    rw [hflag] at h
    simp [h]
  case isFalse hc => exact h

/-- An interaction step preserves the at-most-once invariant. -/
lemma stepToggle_TrigInv (t : Nat) (sv uv : Bool) (s : RoadmapState)
    (a : String × Bool) (h : TrigInv s) : TrigInv (stepToggle t sv uv s a) := by
  unfold stepToggle
  exact completionEffect_TrigInv _ _ _ _ h

/-- A fold of interaction steps preserves the at-most-once invariant. -/
lemma foldl_stepToggle_TrigInv (t : Nat) (sv uv : Bool)
    (l : List (String × Bool)) :
    ∀ s : RoadmapState, TrigInv s →
      TrigInv (l.foldl (stepToggle t sv uv) s) := by
  induction l with
  | nil => intro s h; exact h
  | cons a l ih =>
    intro s h
    rw [List.foldl_cons]
    exact ih _ (stepToggle_TrigInv _ _ _ _ _ h)

/-- A run from a state satisfying the at-most-once invariant satisfies
it again. -/
lemma runUpdates_TrigInv (t : Nat) (sv uv : Bool) (s : RoadmapState)
    (l : List (String × Bool)) (h : TrigInv s) :
    TrigInv (runUpdates t sv uv s l) := by
  unfold runUpdates
  exact foldl_stepToggle_TrigInv _ _ _ _ _ (completionEffect_TrigInv _ _ _ _ h)

/-- The fire counter of a run started untriggered with a clean counter
never exceeds one. -/
lemma runUpdates_fireCount_le_one (t : Nat) (sv uv : Bool) (m : CompletionState)
    (l : List (String × Bool)) :
    (runUpdates t sv uv ⟨m, false, 0⟩ l).fireCount ≤ 1 := by
  have h := runUpdates_TrigInv t sv uv ⟨m, false, 0⟩ l rfl
  unfold TrigInv at h
  rw [h]
  split <;> omega

/-- After the trigger effect has run, a fully-completed percentage
forces the flag to be set (this is what makes re-fires impossible
within one mount). -/
lemma completionEffect_postcondition (t : Nat) (s : RoadmapState)
    (h100 : completionPercentage t (completedCount s.completedNodes) = 100)
    (ht : 0 < t) :
    (completionEffect t true true s).hasTriggeredCompletion = true := by
  unfold completionEffect
  by_cases hb : s.hasTriggeredCompletion
  · split <;> simp [hb]
  · rw [if_pos]
    simp only [Bool.not_eq_true] at hb
    simp [h100, hb, ht]

/-- Interaction-step folds map effect images to effect images. -/
lemma foldl_stepToggle_is_effect (t : Nat) (sv uv : Bool)
    (l : List (String × Bool)) :
    ∀ s0 : RoadmapState, (∃ s2, s0 = completionEffect t sv uv s2) →
      ∃ s3, l.foldl (stepToggle t sv uv) s0 = completionEffect t sv uv s3 := by
  induction l with
  | nil => intro s0 h; exact h
  | cons a l ih =>
    intro s0 h
    rw [List.foldl_cons]
    exact ih _ ⟨_, rfl⟩

/-- Every run output is an image of the trigger effect. -/
lemma runUpdates_is_effect (t : Nat) (sv uv : Bool) (s : RoadmapState)
    (l : List (String × Bool)) :
    ∃ s2, runUpdates t sv uv s l = completionEffect t sv uv s2 :=
  foldl_stepToggle_is_effect t sv uv l _ ⟨s, rfl⟩

/-- Splitting a run at a prefix: the suffix folds from the prefix's
output state. -/
lemma runUpdates_append (t : Nat) (sv uv : Bool) (s : RoadmapState)
    (l1 l2 : List (String × Bool)) :
    runUpdates t sv uv s (l1 ++ l2) =
      l2.foldl (stepToggle t sv uv) (runUpdates t sv uv s l1) := by
  unfold runUpdates
  rw [List.foldl_append]

/-- For roadmaps with fewer than 200 nodes (and a count bounded by the
node total) the rounded percentage reaches 100 exactly at full
completion. -/
lemma completionPercentage_eq_100_iff (t c : Nat) (ht : t < 200) (hc : c ≤ t) :
    completionPercentage t c = 100 ↔ (0 < t ∧ c = t) := by
  unfold completionPercentage
  by_cases ht0 : 0 < t
  · rw [if_pos ht0]
    constructor
    · intro h
      have h2t : 0 < 2 * t := by omega
      have hle : 100 * (2 * t) ≤ 200 * c + t := by
        calc 100 * (2 * t) = ((200 * c + t) / (2 * t)) * (2 * t) := by rw [h]
          _ ≤ 200 * c + t := Nat.div_mul_le_self _ _
      omega
    · rintro ⟨-, hct⟩
      rw [hct]
      have h2 : 200 * t + t = 2 * t * 100 + t := by ring
      rw [h2, Nat.mul_add_div (show 0 < 2 * t by omega),
        Nat.div_eq_of_lt (show t < 2 * t by omega)]
  · rw [if_neg ht0]
    constructor
    · intro h; omega
    · rintro ⟨h, -⟩; omega

/-- A strictly partial completion of a small roadmap never rounds to
100 percent. -/
lemma completionPercentage_ne_100 (t c : Nat) (ht : t < 200) (hc : c < t) :
    completionPercentage t c ≠ 100 := by
  intro h
  obtain ⟨-, hct⟩ := (completionPercentage_eq_100_iff t c ht (le_of_lt hc)).mp h
  omega

/-- Cons-step characterization of the spread update. -/
lemma setKey_cons (p : String × Bool) (m : CompletionState) (k : String) (v : Bool) :
    setKey (p :: m) k v =
      if p.1 == k then (k, v) :: m.map (fun q => if q.1 == k then (k, v) else q)
      else p :: setKey m k v := by
  by_cases hp : p.1 == k
  · rw [if_pos hp]
    unfold setKey
    rw [if_pos (show ((p :: m).any (fun q => q.1 == k)) = true by simp [List.any_cons, hp]),
      List.map_cons, if_pos hp]
  · rw [if_neg hp]
    unfold setKey
    by_cases hm : m.any (fun q => q.1 == k)
    · rw [if_pos (show ((p :: m).any (fun q => q.1 == k)) = true by simp [List.any_cons, hm]),
        List.map_cons, if_neg hp, if_pos hm]
    · rw [if_neg (show ¬ ((p :: m).any (fun q => q.1 == k)) = true by simp [List.any_cons, hp, hm]),
        if_neg hm, List.cons_append]

/-- Cons-step characterization of the map read. -/
lemma getKey_cons (p : String × Bool) (m : CompletionState) (k : String) :
    getKey (p :: m) k = if p.1 == k then p.2 else getKey m k := by
  unfold getKey
  by_cases hp : p.1 == k
  · simp [List.find?_cons_of_pos, hp]
  · simp [List.find?_cons_of_neg, hp]

/-- Reading back the key just written. -/
lemma getKey_setKey (m : CompletionState) (k : String) (v : Bool) :
    getKey (setKey m k v) k = v := by
  induction m with
  | nil => simp [setKey, getKey]
  | cons p tl ih =>
    rw [setKey_cons]
    by_cases hp : p.1 == k
    · rw [if_pos hp, getKey_cons]
      simp
    · rw [if_neg hp, getKey_cons, if_neg hp]
      exact ih

/-- Un-completing and re-completing a present node restores the exact
map (JavaScript object keys are unique, hence the `Nodup` hypothesis). -/
lemma setKey_false_true (m : CompletionState) (id : String)
    (hnd : (m.map Prod.fst).Nodup) (hget : getKey m id = true) :
    setKey (setKey m id false) id true = m := by
  induction m with
  | nil => simp [getKey] at hget
  | cons p tl ih =>
    obtain ⟨pk, pv⟩ := p
    by_cases hp : (pk, pv).1 == id
    · have hkeq : pk = id := beq_iff_eq.mp hp
      have hv : pv = true := by
        rw [getKey_cons, if_pos hp] at hget
        exact hget
      have hid_not : id ∉ tl.map Prod.fst := by
        rw [List.map_cons, List.nodup_cons] at hnd
        rw [← hkeq]
        exact hnd.1
      have hmap1 : tl.map (fun q => if q.1 == id then (id, false) else q) = tl := by
        rw [List.map_congr_left, List.map_id]
        intro q hq
        have : q.1 ≠ id := fun hqe => hid_not (hqe ▸ List.mem_map_of_mem Prod.fst hq)
        simp [this]
      have hmap2 : tl.map (fun q => if q.1 == id then (id, true) else q) = tl := by
        rw [List.map_congr_left, List.map_id]
        intro q hq
        have : q.1 ≠ id := fun hqe => hid_not (hqe ▸ List.mem_map_of_mem Prod.fst hq)
        simp [this]
      rw [setKey_cons, if_pos hp, hmap1, setKey_cons, if_pos (by simp), hmap2,
        hkeq, hv]
    · rw [setKey_cons, if_neg hp, setKey_cons, if_neg hp]
      have hnd2 : (tl.map Prod.fst).Nodup := by
        rw [List.map_cons, List.nodup_cons] at hnd
        exact hnd.2
      have hget2 : getKey tl id = true := by
        rw [getKey_cons, if_neg hp] at hget
        exact hget
      rw [ih hnd2 hget2]

/-- The trigger effect preserves the fire bound. -/
lemma completionEffect_FireBound (t : Nat) (sv uv : Bool) (s : RoadmapState)
    (h : FireBound s) : FireBound (completionEffect t sv uv s) := by
  unfold completionEffect
  split
  case isTrue hc =>
    simp only [Bool.and_eq_true, Bool.not_eq_true'] at hc
    have hflag : s.hasTriggeredCompletion = false := hc.1.1.1.2
    have h0 : s.fireCount = 0 := h.2 hflag
    exact ⟨by simp [h0], fun h2 => by simp at h2⟩
  case isFalse hc => exact h

/-- Interaction steps preserve the fire bound. -/
lemma stepToggle_FireBound (t : Nat) (sv uv : Bool) (s : RoadmapState)
    (a : String × Bool) (h : FireBound s) : FireBound (stepToggle t sv uv s a) := by
  unfold stepToggle
  exact completionEffect_FireBound _ _ _ _ h

/-- Folds of interaction steps preserve the fire bound. -/
lemma foldl_stepToggle_FireBound (t : Nat) (sv uv : Bool)
    (l : List (String × Bool)) :
    ∀ s : RoadmapState, FireBound s →
      FireBound (l.foldl (stepToggle t sv uv) s) := by
  induction l with
  | nil => intro s h; exact h
  | cons a l ih =>
    intro s h
    rw [List.foldl_cons]
    exact ih _ (stepToggle_FireBound _ _ _ _ _ h)

/-- From any clean start (any flag value, zero fires) a run fires at
most once. -/
lemma runUpdates_fireCount_le_one_any (t : Nat) (sv uv : Bool)
    (m : CompletionState) (b : Bool) (l : List (String × Bool)) :
    (runUpdates t sv uv ⟨m, b, 0⟩ l).fireCount ≤ 1 := by
  have h : FireBound (runUpdates t sv uv ⟨m, b, 0⟩ l) := by
    unfold runUpdates
    exact foldl_stepToggle_FireBound _ _ _ _ _
      (completionEffect_FireBound _ _ _ _ ⟨Nat.zero_le _, fun _ => rfl⟩)
  exact h.1

/-- The keys after a spread update: unchanged when the key was present,
the key appended when it was absent. -/
lemma keys_setKey (m : CompletionState) (k : String) (v : Bool) :
    (setKey m k v).map Prod.fst =
      if m.any (fun p => p.1 == k) then m.map Prod.fst
      else m.map Prod.fst ++ [k] := by
  unfold setKey
  by_cases h : m.any (fun p => p.1 == k)
  · rw [if_pos h, if_pos h, List.map_map]
    apply List.map_congr_left
    intro p hp
    by_cases hpk : p.1 == k
    · simp only [Function.comp_apply, if_pos hpk]
      exact (beq_iff_eq.mp hpk).symm
    · simp only [Function.comp_apply, if_neg hpk]
  · rw [if_neg h, if_neg h, List.map_append]
    rfl

/-- An absent key is really absent from the key list. -/
lemma not_mem_keys_of_any_eq_false (m : CompletionState) (k : String)
    (h : m.any (fun p => p.1 == k) = false) : k ∉ m.map Prod.fst := by
  intro hmem
  obtain ⟨p, hp, hpk⟩ := List.mem_map.mp hmem
  have : m.any (fun p => p.1 == k) = true :=
    List.any_eq_true.mpr ⟨p, hp, by simp [hpk]⟩
  rw [this] at h
  exact absurd h (by simp)

/-- The spread update keeps key lists duplicate-free. -/
lemma keys_setKey_nodup (m : CompletionState) (k : String) (v : Bool)
    (hnd : (m.map Prod.fst).Nodup) : ((setKey m k v).map Prod.fst).Nodup := by
  rw [keys_setKey]
  by_cases h : m.any (fun p => p.1 == k)
  · rw [if_pos h]; exact hnd
  · rw [if_neg h]
    rw [List.nodup_append]
    exact ⟨hnd, List.nodup_singleton k,
      fun x hx hxk => (List.mem_singleton.mp hxk ▸ not_mem_keys_of_any_eq_false m k
        (Bool.eq_false_iff.mpr h)) hx⟩

/-- The spread update adds at most the written key to the key list. -/
lemma keys_setKey_subset (m : CompletionState) (k : String) (v : Bool)
    (ids : List String) (hm : ∀ x ∈ m.map Prod.fst, x ∈ ids) (hk : k ∈ ids) :
    ∀ x ∈ (setKey m k v).map Prod.fst, x ∈ ids := by
  intro x hx
  rw [keys_setKey] at hx
  by_cases h : m.any (fun p => p.1 == k)
  · rw [if_pos h] at hx; exact hm x hx
  · rw [if_neg h] at hx
    rcases List.mem_append.mp hx with h1 | h1
    · exact hm x h1
    · rw [List.mem_singleton.mp h1]; exact hk

/-- The completed count is bounded by the number of distinct keys. -/
lemma completedCount_le_keys_length (m : CompletionState) :
    completedCount m ≤ (m.map Prod.fst).length := by
  unfold completedCount
  rw [List.length_map]
  exact List.length_filter_le _ _

/-- A graph with a node on a day outside 1–3 renders strictly fewer
nodes than it has. -/
lemma renderedIds_length_lt (g : RoadmapGraph)
    (hhidden : ∃ n ∈ g.nodes, ¬(n.day = 1 ∨ n.day = 2 ∨ n.day = 3)) :
    (renderedIds g).length < g.nodes.length := by
  obtain ⟨n, hn, hday⟩ := hhidden
  unfold renderedIds renderedNodes
  rw [List.length_map]
  have hsub : List.Sublist (g.nodes.filter (fun n => n.day == 1 || n.day == 2 || n.day == 3))
      g.nodes := List.filter_sublist g.nodes
  rcases Nat.lt_or_ge (g.nodes.filter
      (fun n => n.day == 1 || n.day == 2 || n.day == 3)).length g.nodes.length with h | h
  · exact h
  · exfalso
    have heq := hsub.eq_of_length_le h
    have hmem := List.of_mem_filter (heq ▸ hn)
    simp only [Bool.or_eq_true, beq_iff_eq] at hmem
    tauto

/-- Under the invariant the completed count stays strictly below the
node total. -/
lemma UIInv_count_lt (g : RoadmapGraph) (s : RoadmapState)
    (hhidden : ∃ n ∈ g.nodes, ¬(n.day = 1 ∨ n.day = 2 ∨ n.day = 3))
    (h : UIInv g s) :
    completedCount s.completedNodes < g.nodes.length := by
  calc completedCount s.completedNodes
      ≤ (s.completedNodes.map Prod.fst).length := completedCount_le_keys_length _
    _ ≤ (renderedIds g).length := (List.Nodup.subperm h.1 h.2.1).length_le
    _ < g.nodes.length := renderedIds_length_lt g hhidden

/-- The trigger effect never fires while the invariant holds on a
small graph with a hidden node. -/
lemma completionEffect_UIInv (g : RoadmapGraph) (sv uv : Bool) (s : RoadmapState)
    (hhidden : ∃ n ∈ g.nodes, ¬(n.day = 1 ∨ n.day = 2 ∨ n.day = 3))
    (hsize : g.nodes.length < 200)
    (h : UIInv g s) : UIInv g (completionEffect g.nodes.length sv uv s) := by
  have hne := completionPercentage_ne_100 g.nodes.length
    (completedCount s.completedNodes) hsize (UIInv_count_lt g s hhidden h)
  unfold completionEffect
  rw [if_neg]
  · exact h
  · intro hc
    simp only [Bool.and_eq_true, beq_iff_eq] at hc
    exact hne hc.1.1.1.1

/-- Interaction steps on rendered nodes preserve the invariant. -/
lemma stepToggle_UIInv (g : RoadmapGraph) (sv uv : Bool) (s : RoadmapState)
    (a : String × Bool)
    (hhidden : ∃ n ∈ g.nodes, ¬(n.day = 1 ∨ n.day = 2 ∨ n.day = 3))
    (hsize : g.nodes.length < 200)
    (ha : a.1 ∈ renderedIds g)
    (h : UIInv g s) : UIInv g (stepToggle g.nodes.length sv uv s a) := by
  unfold stepToggle
  apply completionEffect_UIInv g sv uv _ hhidden hsize
  by_cases h2 : a.2
  · simp only [h2, if_pos]
    exact ⟨keys_setKey_nodup _ _ _ h.1,
      keys_setKey_subset _ _ _ _ h.2.1 ha, h.2.2⟩
  · simp only [h2]
    exact ⟨h.1, h.2.1, h.2.2⟩

/-- Folds of rendered-node interaction steps preserve the invariant. -/
lemma foldl_stepToggle_UIInv (g : RoadmapGraph) (sv uv : Bool)
    (l : List (String × Bool))
    (hhidden : ∃ n ∈ g.nodes, ¬(n.day = 1 ∨ n.day = 2 ∨ n.day = 3))
    (hsize : g.nodes.length < 200)
    (hl : ∀ a ∈ l, a.1 ∈ renderedIds g) :
    ∀ s : RoadmapState, UIInv g s →
      UIInv g (l.foldl (stepToggle g.nodes.length sv uv) s) := by
  induction l with
  | nil => intro s h; exact h
  | cons a l ih =>
    intro s h
    rw [List.foldl_cons]
    exact ih (fun b hb => hl b (List.mem_cons_of_mem a hb)) _
      (stepToggle_UIInv g sv uv s a hhidden hsize (hl a (List.mem_cons_self a l)) h)

/-- Reading an absent key gives `false` (`undefined` is falsy). -/
lemma getKey_eq_false_of_not_mem_keys (m : CompletionState) (k : String)
    (h : k ∉ m.map Prod.fst) : getKey m k = false := by
  induction m with
  | nil => rfl
  | cons p tl ih =>
    rw [getKey_cons, if_neg]
    · exact ih (fun hmem => h (List.mem_cons_of_mem _ hmem))
    · intro hp
      exact h (by
        rw [List.map_cons, beq_iff_eq.mp hp]
        exact List.mem_cons_self _ _)

/-- A key outside the key list makes the presence test false. -/
lemma any_eq_false_of_not_mem_keys (m : CompletionState) (k : String)
    (h : k ∉ m.map Prod.fst) : m.any (fun p => p.1 == k) = false := by
  rw [Bool.eq_false_iff]
  intro hany
  obtain ⟨p, hp, hpk⟩ := List.any_eq_true.mp hany
  exact h (List.mem_map.mpr ⟨p, hp, beq_iff_eq.mp hpk⟩)

/-- Toggling a list of fresh, distinct node ids to complete appends
them all as completed entries. -/
lemma applyToggles_fresh (ids : List String) :
    ∀ m : CompletionState, (∀ id ∈ ids, id ∉ m.map Prod.fst) → ids.Nodup →
      applyToggles m (ids.map (fun id => (id, true)))
        = m ++ ids.map (fun id => (id, true)) := by
  induction ids with
  | nil => intro m _ _; simp [applyToggles]
  | cons id ids ih =>
    intro m hfresh hnd
    have hstep : nodeUpdate m id = m ++ [(id, true)] := by
      unfold nodeUpdate
      rw [getKey_eq_false_of_not_mem_keys m id (hfresh id (List.mem_cons_self _ _))]
      unfold setKey
      rw [if_neg (by
        rw [any_eq_false_of_not_mem_keys m id (hfresh id (List.mem_cons_self _ _))]
        simp)]
      rfl
    have hrec := ih (m ++ [(id, true)]) (fun x hx => by
      rw [List.map_append, List.mem_append]
      rintro (h1 | h1)
      · exact hfresh x (List.mem_cons_of_mem _ hx) h1
      · rw [List.nodup_cons] at hnd
        simp only [List.map_cons, List.map_nil, List.mem_singleton] at h1
        exact hnd.1 (h1 ▸ hx)) (List.nodup_cons.mp hnd).2
    calc applyToggles m ((id :: ids).map (fun id => (id, true)))
        = applyToggles (nodeUpdate m id) (ids.map (fun id => (id, true))) := by
          simp [applyToggles, List.foldl_cons]
      _ = (m ++ [(id, true)]) ++ ids.map (fun id => (id, true)) := by
          rw [hstep] at *; exact hrec
      _ = m ++ (id :: ids).map (fun id => (id, true)) := by
          rw [List.append_assoc]; rfl

/-- All-completed entry lists count their full length. -/
lemma completedCount_all_true (ids : List String) :
    completedCount (ids.map (fun id => (id, true))) = ids.length := by
  unfold completedCount
  rw [List.filter_eq_self.mpr (by
    intro p hp
    obtain ⟨id, -, hid⟩ := List.mem_map.mp hp
    rw [← hid]), List.length_map]

/-! ## Claim theorems -/

/-- C3: for every similarity score `s`, classification into a tier is
total and deterministic (it is a function) using the two fixed
constants `T_discard < T_ready` of `fetchJobs`: `s ≥ T_ready` yields
Ready, `T_discard ≤ s < T_ready` yields Gap, and `s < T_discard` yields
Discard, with the matching status and tier strings. -/
theorem claim_C3_classify (s : ℚ) :
    T_discard < T_ready
    ∧ (T_ready ≤ s →
        classify s = Tier.Ready ∧ jobStatus s = "Ready" ∧ jobTierLetter s = "A")
    ∧ (T_discard ≤ s ∧ s < T_ready →
        classify s = Tier.Gap ∧ jobStatus s = "Gap Detected" ∧ jobTierLetter s = "B")
    ∧ (s < T_discard →
        classify s = Tier.Discard ∧ jobStatus s = "Low Match" ∧ jobTierLetter s = "C") := by
  refine ⟨by norm_num [T_discard, T_ready], fun h => ?_, fun h => ?_, fun h => ?_⟩
  · simp [classify, jobStatus, jobTierLetter, h]
  · have h1 : ¬ T_ready ≤ s := not_le.mpr h.2
    simp [classify, jobStatus, jobTierLetter, h1, h.1]
  · have h0 : T_discard < T_ready := by norm_num [T_discard, T_ready]
    have h1 : ¬ T_ready ≤ s := not_le.mpr (h.trans h0)
    have h2 : ¬ T_discard ≤ s := not_le.mpr h
    simp [classify, jobStatus, jobTierLetter, h1, h2]

/-- Witness for C3 at the spec's example scores 0.92 / 0.65 / 0.30. -/
theorem claim_C3_classify_witness :
    classify (mkRat 92 100) = Tier.Ready
    ∧ classify (mkRat 65 100) = Tier.Gap
    ∧ classify (mkRat 30 100) = Tier.Discard :=
  ⟨((claim_C3_classify (mkRat 92 100)).2.1 (by decide)).1,
   ((claim_C3_classify (mkRat 65 100)).2.2.1 ⟨by decide, by decide⟩).1,
   ((claim_C3_classify (mkRat 30 100)).2.2.2 (by decide)).1⟩

/-- C9: `parseGeminiResponse` validates untrusted generator output —
for every input text and solved list, the result has at most 30 ids,
every returned id is a Blind 75 problem id and is not solved, and on
any parse failure (no regex match, or `JSON.parse` throwing) the
result is the empty list. -/
theorem claim_C9_parse (text : String) (solvedProblemIds : List Nat) :
    (parseGeminiResponse text solvedProblemIds).length ≤ 30
    ∧ (∀ id ∈ parseGeminiResponse text solvedProblemIds,
        id ∈ blind75Ids ∧ id ∉ solvedProblemIds)
    ∧ (firstBracketMatch text.data = none →
        parseGeminiResponse text solvedProblemIds = [])
    ∧ (∀ content, firstBracketMatch text.data = some content →
        parseJsonNatArray content = none →
        parseGeminiResponse text solvedProblemIds = []) := by
  cases hm : firstBracketMatch text.data with
  | none =>
    have he : parseGeminiResponse text solvedProblemIds = [] := by
      simp only [parseGeminiResponse, hm]
    rw [he]
    exact ⟨by simp, by simp, fun _ => rfl, fun c hc _ => by simp [hm] at hc⟩
  | some content =>
    cases hp : parseJsonNatArray content with
    | none =>
      have he : parseGeminiResponse text solvedProblemIds = [] := by
        simp only [parseGeminiResponse, hm, hp]
      rw [he]
      refine ⟨by simp, by simp, fun _ => rfl, fun c hc _ => rfl⟩
    | some ids =>
      have he : parseGeminiResponse text solvedProblemIds =
          (ids.filter (fun id =>
            BLIND_75_PROBLEMS.any (fun p => p.id == id)
            && !(solvedProblemIds.contains id))).take 30 := by
        simp only [parseGeminiResponse, hm, hp]
      rw [he]
      refine ⟨List.length_take_le _ _, fun id hid => ?_,
        fun hcon => absurd hcon (by simp), fun c hc hn => ?_⟩
      · have hf := List.mem_of_mem_take hid
        obtain ⟨hmem, hpred⟩ := List.mem_filter.mp hf
        simp only [Bool.and_eq_true, Bool.not_eq_true'] at hpred
        obtain ⟨hany, hsolved⟩ := hpred
        constructor
        · obtain ⟨p, hpmem, hpid⟩ := List.any_eq_true.mp hany
          exact List.mem_map.mpr ⟨p, hpmem, beq_iff_eq.mp hpid⟩
        · intro hin
          have h2 : id ∉ solvedProblemIds := by simpa using hsolved
          exact h2 hin
      · injection hc with hc
        rw [← hc] at hn
        rw [hp] at hn
        exact absurd hn (by simp)

/-- Witness for C9: a concrete response text keeps 217 (a Blind 75 id
not in the solved list). -/
theorem claim_C9_parse_witness :
    217 ∈ blind75Ids ∧ 217 ∉ ([2] : List Nat) :=
  (claim_C9_parse "here: [1, 2, 217] done" [2]).2.1 217 (by decide)

/-- C4 counterexample.  The cache condition of `runStrategy` is
`strategyJobs.length > 0 && !forceRefresh`, which is not keyed by day
and does not hold after a successful run that committed an empty match
list: the second same-day `force=false` call recomputes and can return
a different list.  Moreover a `force=true` call whose response is not
successful leaves the prior list in place instead of replacing it. -/
theorem claim_C4_counterexample :
    (runStrategy ⟨some "s", some ["python"], [], none⟩ false
      ⟨"success", some []⟩).returned = true
    ∧ (runStrategy (runStrategy ⟨some "s", some ["python"], [], none⟩ false
        ⟨"success", some []⟩).state false ⟨"success", some ["job1"]⟩).recomputed = true
    ∧ (runStrategy (runStrategy ⟨some "s", some ["python"], [], none⟩ false
        ⟨"success", some []⟩).state false ⟨"success", some ["job1"]⟩).state.strategyJobs
      ≠ (runStrategy ⟨some "s", some ["python"], [], none⟩ false
        ⟨"success", some []⟩).state.strategyJobs
    ∧ (runStrategy ⟨some "s", some ["python"], ["old"], none⟩ true
        ⟨"error", none⟩).recomputed = true
    ∧ (runStrategy ⟨some "s", some ["python"], ["old"], none⟩ true
        ⟨"error", none⟩).state.strategyJobs = ["old"] := by
  decide

/-- C4 amended: once a run has committed a non-empty match list, a
`force=false` call is an idempotent no-op — it returns the identical
cached state with `true` and does not recompute, and so does a second
such call; a `force=true` call always bypasses the cache and
recomputes, and when its response is successful it replaces the prior
list wholesale.  (A run that left the list empty is not cached, and a
failed forced response keeps the prior list.) -/
theorem claim_C4_amended (s : SessionState) (r r2 : MatchResponse) (ms : List String)
    (hsid : s.sessionId.isSome) (hprof : s.profile.isSome) :
    (s.strategyJobs ≠ [] →
      runStrategy s false r = ⟨s, true, false⟩
      ∧ runStrategy (runStrategy s false r).state false r2 = ⟨s, true, false⟩)
    ∧ (r.status = "success" → r.jobMatches = some ms →
        (runStrategy s true r).recomputed = true
        ∧ (runStrategy s true r).state.strategyJobs = ms) := by
  obtain ⟨osid, oprof, jobs, err⟩ := s
  obtain ⟨sid, rfl⟩ := Option.isSome_iff_exists.mp hsid
  obtain ⟨prof, rfl⟩ := Option.isSome_iff_exists.mp hprof
  constructor
  · intro hne
    have hpos : 0 < jobs.length := List.length_pos.mpr hne
    have h1 : runStrategy ⟨some sid, some prof, jobs, err⟩ false r
        = ⟨⟨some sid, some prof, jobs, err⟩, true, false⟩ := by
      unfold runStrategy
      simp [hpos]
    refine ⟨h1, ?_⟩
    rw [h1]
    unfold runStrategy
    simp [hpos]
  · intro hst hmt
    unfold runStrategy
    rw [hmt]
    simp [hst]

/-- Witness for the amended C4 at a concrete cached state and a forced
refresh. -/
theorem claim_C4_amended_witness :
    runStrategy ⟨some "s", some ["python"], ["cached"], none⟩ false ⟨"x", none⟩
      = ⟨⟨some "s", some ["python"], ["cached"], none⟩, true, false⟩
    ∧ (runStrategy ⟨some "s", some ["python"], ["cached"], none⟩ true
        ⟨"success", some ["new"]⟩).state.strategyJobs = ["new"] :=
  ⟨((claim_C4_amended ⟨some "s", some ["python"], ["cached"], none⟩
      ⟨"x", none⟩ ⟨"x", none⟩ ["new"] (by decide) (by decide)).1 (by decide)).1,
   ((claim_C4_amended ⟨some "s", some ["python"], ["cached"], none⟩
      ⟨"success", some ["new"]⟩ ⟨"x", none⟩ ["new"] (by decide) (by decide)).2
      (by decide) (by decide)).2⟩

/-- C5 (spec-modelled: the enrichment pipeline that attaches roadmaps
is backend code absent from `src/`): a roadmap is attached iff the item
is Gap-tier — Ready and Discard items never carry a roadmap, a
Gap-tier item carries the synthesizer's graph, and a Gap-tier item
whose synthesis failed is explicitly degraded to `roadmap = null` with
the pending flag set. -/
theorem claim_C5_roadmap_iff_gap (tier : Tier) (synthesized : Option RoadmapGraph) :
    ((enrichItem tier synthesized).roadmap.isSome → tier = Tier.Gap)
    ∧ (tier ≠ Tier.Gap → (enrichItem tier synthesized).roadmap = none)
    ∧ (tier = Tier.Gap → (enrichItem tier synthesized).roadmap = synthesized
        ∧ ((enrichItem tier synthesized).roadmap = none →
            (enrichItem tier synthesized).roadmapPending = true)) := by
  cases tier <;> cases synthesized <;> simp [enrichItem]

/-- Witness for C5 at concrete tiers and a concrete synthesized graph. -/
theorem claim_C5_roadmap_iff_gap_witness :
    (enrichItem Tier.Ready (some ⟨[], []⟩)).roadmap = none
    ∧ (enrichItem Tier.Gap (some ⟨[], []⟩)).roadmap = some ⟨[], []⟩
    ∧ (enrichItem Tier.Gap none).roadmapPending = true :=
  ⟨(claim_C5_roadmap_iff_gap Tier.Ready (some ⟨[], []⟩)).2.1 (by decide),
   ((claim_C5_roadmap_iff_gap Tier.Gap (some ⟨[], []⟩)).2.2 rfl).1,
   ((claim_C5_roadmap_iff_gap Tier.Gap none).2.2 rfl).2 rfl⟩

/-- C8 (spec-modelled: the orchestrator's enrichment fan-out is backend
code absent from `src/`): partial-failure isolation — the run commits a
result for every retained item (no abort), each output slot depends
only on its own item's synthesis outcome, and in the three-item
scenario where synthesis fails for exactly the middle item the other
two are fully enriched while the failing one is degraded to
`roadmap = null` and flagged pending. -/
theorem claim_C8_isolation (items : List (Tier × Option RoadmapGraph)) (i : Nat) :
    (enrichRun items).length = items.length
    ∧ (enrichRun items)[i]? = (items[i]?).map (fun it => enrichItem it.1 it.2)
    ∧ (∀ a c : RoadmapGraph,
        enrichRun [(Tier.Gap, some a), (Tier.Gap, none), (Tier.Gap, some c)]
          = [⟨Tier.Gap, some a, false⟩, ⟨Tier.Gap, none, true⟩, ⟨Tier.Gap, some c, false⟩]) := by
  refine ⟨?_, ?_, fun a c => ?_⟩
  · simp [enrichRun]
  · simp [enrichRun, List.getElem?_map]
  · simp [enrichRun, enrichItem]

/-- C6 (spec-modelled: the synthesizer and its validation pass are
backend code absent from `src/`; modelled from §4.3/§9 of the spec with
Kahn's algorithm): every graph accepted by the validation-then-retry
pipeline is acyclic, every edge satisfies
`day(source) ≤ day(target)`, every edge endpoint references an existing
node id, and acceptance implies the validation pass succeeded. -/
theorem claim_C6_validated_dag (first retry accepted : RoadmapGraph)
    (hacc : acceptGraph first retry = some accepted) :
    Acyclic accepted
    ∧ (∀ e ∈ accepted.edges,
        e.source ∈ nodeIds accepted ∧ e.target ∈ nodeIds accepted)
    ∧ (∀ e ∈ accepted.edges, dayOf accepted e.source ≤ dayOf accepted e.target)
    ∧ validateRoadmapGraph accepted = true := by
  have hval : validateRoadmapGraph accepted = true := by
    unfold acceptGraph at hacc
    by_cases h1 : validateRoadmapGraph first
    · rw [if_pos h1] at hacc
      injection hacc with hacc
      rw [← hacc]; exact h1
    · rw [if_neg h1] at hacc
      by_cases h2 : validateRoadmapGraph retry
      · rw [if_pos h2] at hacc
        injection hacc with hacc
        rw [← hacc]; exact h2
      · rw [if_neg h2] at hacc; exact absurd hacc (by simp)
  have hparts := hval
  unfold validateRoadmapGraph at hparts
  simp only [Bool.and_eq_true] at hparts
  obtain ⟨⟨hend, hday⟩, hkahn⟩ := hparts
  have hendpoints : ∀ e ∈ accepted.edges,
      e.source ∈ nodeIds accepted ∧ e.target ∈ nodeIds accepted := by
    intro e he
    have := List.all_eq_true.mp hend e he
    simp only [Bool.and_eq_true] at this
    exact ⟨List.mem_of_elem_eq_true this.1, List.mem_of_elem_eq_true this.2⟩
  refine ⟨?_, hendpoints, ?_, hval⟩
  · obtain ⟨f, hf⟩ := kahnPeel_topo accepted.edges (nodeIds accepted).length
      (nodeIds accepted) hkahn
    apply topoOrder_acyclic accepted f
    intro a b hab
    obtain ⟨e, he, hsrc, htgt⟩ := hab
    have hmem := hendpoints e he
    rw [← hsrc, ← htgt]
    exact hf e he hmem.1 hmem.2
  · intro e he
    have := List.all_eq_true.mp hday e he
    simpa using this

/-- Witness for C6 at a concrete two-node, one-edge graph that passes
validation. -/
theorem claim_C6_validated_dag_witness :
    Acyclic ⟨[⟨"a", "A", 1, "concept", ""⟩, ⟨"b", "B", 2, "practice", ""⟩],
      [⟨"a", "b"⟩]⟩
    ∧ validateRoadmapGraph ⟨[⟨"a", "A", 1, "concept", ""⟩, ⟨"b", "B", 2, "practice", ""⟩],
      [⟨"a", "b"⟩]⟩ = true := by
  have h := claim_C6_validated_dag
    ⟨[⟨"a", "A", 1, "concept", ""⟩, ⟨"b", "B", 2, "practice", ""⟩], [⟨"a", "b"⟩]⟩
    ⟨[⟨"a", "A", 1, "concept", ""⟩, ⟨"b", "B", 2, "practice", ""⟩], [⟨"a", "b"⟩]⟩
    ⟨[⟨"a", "A", 1, "concept", ""⟩, ⟨"b", "B", 2, "practice", ""⟩], [⟨"a", "b"⟩]⟩
    (by decide)
  exact ⟨h.1, h.2.2.2⟩

/-- C2 counterexample.  With 200 nodes and 199 completed, the code's
`Math.round((199 / 200) * 100)` is `Math.round(99.5) = 100` (the IEEE
double of `(199/200)*100` is exactly 99.5), so the completion
percentage is 100 and the trigger fires while node `"n199"` is still
incomplete, refuting "the percentage equals completed/total" and
"never fires while some node is still incomplete". -/
theorem claim_C2_counterexample :
    completionPercentage
        (RoadmapGraph.nodes ⟨(List.range 200).map
          (fun i => ⟨"n" ++ Nat.repr i, "", 1, "concept", ""⟩), []⟩).length
        (completedCount ((List.range 199).map (fun i => ("n" ++ Nat.repr i, true)))) = 100
    ∧ (∃ n ∈ (RoadmapGraph.nodes ⟨(List.range 200).map
          (fun i => ⟨"n" ++ Nat.repr i, "", 1, "concept", ""⟩), []⟩), n.id = "n199")
    ∧ getKey ((List.range 199).map (fun i => ("n" ++ Nat.repr i, true))) "n199" = false
    ∧ completedCount ((List.range 199).map (fun i => ("n" ++ Nat.repr i, true)))
        < (RoadmapGraph.nodes ⟨(List.range 200).map
          (fun i => ⟨"n" ++ Nat.repr i, "", 1, "concept", ""⟩), []⟩).length
    ∧ (completionEffect 200 true true
        ⟨(List.range 199).map (fun i => ("n" ++ Nat.repr i, true)), false, 0⟩).fireCount = 1 := by
  set_option maxRecDepth 100000 in decide

/-- C2 amended: the derived completion percentage is
`Math.round(100 * completed / total)` (0 when the roadmap has no
nodes), and the trigger fires exactly when this rounded percentage is
100 and the persisted flag is still unset; for roadmaps with fewer
than 200 nodes the rounded percentage is 100 exactly when every
counted node is completed, but for larger roadmaps it can reach 100
with a node still incomplete (see the counterexample). -/
theorem claim_C2_amended (t c : Nat) (s : RoadmapState)
    (ht : t < 200) (hc : c ≤ t) :
    (completionPercentage t c = 100 ↔ (0 < t ∧ c = t))
    ∧ completionPercentage 0 c = 0
    ∧ ((completionEffect t true true s).fireCount = s.fireCount + 1 ↔
        (completionPercentage t (completedCount s.completedNodes) = 100
          ∧ s.hasTriggeredCompletion = false ∧ 0 < t)) := by
  refine ⟨completionPercentage_eq_100_iff t c ht hc, by simp [completionPercentage], ?_⟩
  unfold completionEffect
  split
  case isTrue hcond =>
    simp only [Bool.and_eq_true, Bool.not_eq_true', beq_iff_eq, decide_eq_true_eq] at hcond
    simp only [true_iff]
    exact ⟨hcond.1.1.1.1, hcond.1.1.1.2, hcond.2⟩
  case isFalse hcond =>
    constructor
    · intro h; omega
    · rintro ⟨h1, h2, h3⟩
      exfalso
      apply hcond
      simp [h1, h2, h3]

/-- Witness for the amended C2 at a three-node roadmap. -/
theorem claim_C2_amended_witness :
    completionPercentage 3 3 = 100
    ∧ (completionEffect 3 true true
        ⟨[("a", true), ("b", true), ("c", true)], false, 0⟩).fireCount = 0 + 1 :=
  ⟨(claim_C2_amended 3 3 ⟨[], false, 0⟩ (by decide) (by decide)).1.mpr (by decide),
   (claim_C2_amended 3 3 ⟨[("a", true), ("b", true), ("c", true)], false, 0⟩
      (by decide) (by decide)).2.2.mpr (by decide)⟩

/-- C1 amended: within one mounted component lifetime the skill
acquisition side effect fires exactly once across any sequence of
node-completion updates that reaches 100% (including sequences that
drop below 100% and climb back): the fire counter never exceeds one,
and equals one whenever some prefix of the updates reaches a
100% completion percentage. -/
theorem claim_C1_amended (t : Nat) (m0 : CompletionState)
    (p rest : List (String × Bool))
    (ht : 0 < t)
    (h100 : completionPercentage t (completedCount (applyToggles m0 p)) = 100) :
    (∀ l : List (String × Bool),
      (runUpdates t true true ⟨m0, false, 0⟩ l).fireCount ≤ 1)
    ∧ (runUpdates t true true ⟨m0, false, 0⟩ (p ++ rest)).fireCount = 1 := by
  refine ⟨fun l => runUpdates_fireCount_le_one t true true m0 l, ?_⟩
  have hsp : (runUpdates t true true ⟨m0, false, 0⟩ p).hasTriggeredCompletion = true := by
    obtain ⟨s2, hs2⟩ := runUpdates_is_effect t true true ⟨m0, false, 0⟩ p
    rw [hs2]
    apply completionEffect_postcondition t s2 _ ht
    have hmap2 : s2.completedNodes = applyToggles m0 p := by
      have heq := completionEffect_completedNodes t true true s2
      rw [← heq, ← hs2, runUpdates_completedNodes]
    rw [hmap2]
    exact h100
  rw [runUpdates_append]
  have hfin := foldl_stepToggle_triggered_mono t true true rest _ hsp
  have hinv : TrigInv (rest.foldl (stepToggle t true true)
      (runUpdates t true true ⟨m0, false, 0⟩ p)) :=
    foldl_stepToggle_TrigInv t true true rest _
      (runUpdates_TrigInv t true true ⟨m0, false, 0⟩ p rfl)
  unfold TrigInv at hinv
  rw [hinv, hfin]
  simp

/-- Witness for the amended C1: complete three nodes (the trigger
fires), un-complete the third, re-complete it; the side effect has
fired exactly once. -/
theorem claim_C1_amended_witness :
    (runUpdates 3 true true ⟨[], false, 0⟩
      ([("a", true), ("b", true), ("c", true)] ++ [("c", true), ("c", true)])).fireCount = 1 :=
  (claim_C1_amended 3 [] [("a", true), ("b", true), ("c", true)]
    [("c", true), ("c", true)] (by decide) (by decide)).2

/-- C1 counterexample.  `hasTriggeredCompletion` is in-memory component
state, not a persisted flag: the progress-load effect re-derives it on
mount as "all nodes currently complete".  Complete all three nodes
(the effect fires once), un-complete one, remount (the reload now sees
2/3 complete, so the flag loads as `false`), and re-complete the node:
the effect fires a second time — the side effect is not fired at most
once ever for the record. -/
theorem claim_C1_counterexample :
    (runSession 3 true true ⟨[], false, 0⟩
      [SessionAct.toggle "a" true, SessionAct.toggle "b" true,
       SessionAct.toggle "c" true, SessionAct.toggle "c" true,
       SessionAct.remount, SessionAct.toggle "c" true]).fireCount = 2 := by
  decide

/-- C7 counterexample.  `handleNodeComplete` has toggle semantics
(`[nodeId]: !wasCompleted`): repeating the node-completion update on an
already-completed node does not return identical state — it
un-completes the node. -/
theorem claim_C7_counterexample :
    getKey [("a", true)] "a" = true
    ∧ nodeUpdate [("a", true)] "a" ≠ [("a", true)]
    ∧ getKey (nodeUpdate [("a", true)] "a") "a" = false := by
  decide

/-- C7 amended: the node-completion update toggles — on an
already-completed node it un-completes it (the state is not
identical), applying it twice restores the original map exactly, and
no sequence of repeated updates ever fires the completion trigger more
than once, because the triggered flag is checked and set. -/
theorem claim_C7_amended (m : CompletionState) (id : String) (t : Nat) (b : Bool)
    (l : List (String × Bool))
    (hnd : (m.map Prod.fst).Nodup) (hget : getKey m id = true) :
    nodeUpdate m id ≠ m
    ∧ nodeUpdate (nodeUpdate m id) id = m
    ∧ (runUpdates t true true ⟨m, b, 0⟩ l).fireCount ≤ 1 := by
  refine ⟨?_, ?_, runUpdates_fireCount_le_one_any t true true m b l⟩
  · intro heq
    have h1 : getKey (nodeUpdate m id) id = !(getKey m id) := getKey_setKey _ _ _
    rw [heq, hget] at h1
    exact absurd h1 (by simp)
  · unfold nodeUpdate
    rw [hget]
    have h1 : getKey (setKey m id !true) id = !true := getKey_setKey _ _ _
    rw [h1]
    simpa using setKey_false_true m id hnd hget

/-- Witness for the amended C7 at a concrete completed node. -/
theorem claim_C7_amended_witness :
    nodeUpdate (nodeUpdate [("a", true), ("b", false)] "a") "a"
      = [("a", true), ("b", false)] :=
  (claim_C7_amended [("a", true), ("b", false)] "a" 2 false [("a", true)]
    (by decide) (by decide)).2.1

/-- C10 amended: the graph view renders (and lets the user toggle)
only nodes of days 1–3 while the percentage is computed over all
nodes, so for a graph that has a node on another day and fewer than
200 nodes in total, no sequence of UI toggles ever brings the rounded
percentage to 100 and the completion trigger never fires; with 200 or
more nodes the rounding can still reach 100 (see the counterexample). -/
theorem claim_C10_amended (g : RoadmapGraph) (m0 : CompletionState) (b : Bool)
    (actions : List (String × Bool))
    (hhidden : ∃ n ∈ g.nodes, ¬(n.day = 1 ∨ n.day = 2 ∨ n.day = 3))
    (hsize : g.nodes.length < 200)
    (hm0nd : (m0.map Prod.fst).Nodup)
    (hm0 : ∀ x ∈ m0.map Prod.fst, x ∈ renderedIds g)
    (hacts : ∀ a ∈ actions, a.1 ∈ renderedIds g) :
    completionPercentage g.nodes.length
        (completedCount ((runUpdates g.nodes.length true true
          ⟨m0, b, 0⟩ actions).completedNodes)) ≠ 100
    ∧ (runUpdates g.nodes.length true true ⟨m0, b, 0⟩ actions).fireCount = 0 := by
  have hinv : UIInv g (runUpdates g.nodes.length true true ⟨m0, b, 0⟩ actions) := by
    unfold runUpdates
    exact foldl_stepToggle_UIInv g true true actions hhidden hsize hacts _
      (completionEffect_UIInv g true true _ hhidden hsize ⟨hm0nd, hm0, rfl⟩)
  exact ⟨completionPercentage_ne_100 _ _ hsize (UIInv_count_lt g _ hhidden hinv),
    hinv.2.2⟩

/-- Witness for the amended C10 at a two-node graph (one rendered
day-1 node, one hidden day-4 node): completing the rendered node
leaves the percentage below 100 and the trigger silent. -/
theorem claim_C10_amended_witness :
    completionPercentage 2
        (completedCount ((runUpdates 2 true true
          ⟨[], false, 0⟩ [("a", true)]).completedNodes)) ≠ 100
    ∧ (runUpdates 2 true true ⟨[], false, 0⟩ [("a", true)]).fireCount = 0 :=
  claim_C10_amended
    ⟨[⟨"a", "A", 1, "concept", ""⟩, ⟨"h", "H", 4, "project", ""⟩], []⟩
    [] false [("a", true)]
    (by decide) (by decide) (by decide) (by decide) (by decide)

/-- C10 counterexample.  A graph with 199 rendered day-1 nodes and one
hidden day-4 node has 200 nodes in total; completing the 199 rendered
nodes through the UI gives `Math.round((199 / 200) * 100) =
Math.round(99.5) = 100` (the IEEE double is exactly 99.5), so the
percentage reaches 100 and the trigger fires even though the hidden
node was never completed — refuting "the completion percentage can
never reach 100 through the UI and the trigger never fires". -/
theorem claim_C10_counterexample :
    (∃ n ∈ (RoadmapGraph.nodes ⟨((List.range 199).map
        (fun i => ⟨"n" ++ Nat.repr i, "", 1, "concept", ""⟩)) ++ [⟨"h", "", 4, "project", ""⟩],
        []⟩), ¬(n.day = 1 ∨ n.day = 2 ∨ n.day = 3))
    ∧ (∀ a ∈ ((List.range 199).map (fun i => "n" ++ Nat.repr i)).map
          (fun id => (id, true)),
        a.1 ∈ renderedIds ⟨((List.range 199).map
          (fun i => ⟨"n" ++ Nat.repr i, "", 1, "concept", ""⟩)) ++ [⟨"h", "", 4, "project", ""⟩],
          []⟩)
    ∧ (runUpdates 200 true true ⟨[], false, 0⟩
        (((List.range 199).map (fun i => "n" ++ Nat.repr i)).map
          (fun id => (id, true)))).fireCount = 1
    ∧ getKey ((runUpdates 200 true true ⟨[], false, 0⟩
        (((List.range 199).map (fun i => "n" ++ Nat.repr i)).map
          (fun id => (id, true)))).completedNodes) "h" = false := by
  have hids_nodup : ((List.range 199).map (fun i => "n" ++ Nat.repr i)).Nodup := by
    set_option maxRecDepth 100000 in decide
  have hmap : (runUpdates 200 true true ⟨[], false, 0⟩
      (((List.range 199).map (fun i => "n" ++ Nat.repr i)).map
        (fun id => (id, true)))).completedNodes
      = ((List.range 199).map (fun i => "n" ++ Nat.repr i)).map (fun id => (id, true)) := by
    rw [runUpdates_completedNodes]
    have := applyToggles_fresh ((List.range 199).map (fun i => "n" ++ Nat.repr i))
      [] (by simp) hids_nodup
    simpa using this
  have hcount : completedCount ((runUpdates 200 true true ⟨[], false, 0⟩
      (((List.range 199).map (fun i => "n" ++ Nat.repr i)).map
        (fun id => (id, true)))).completedNodes) = 199 := by
    rw [hmap, completedCount_all_true]
    simp
  have h100 : completionPercentage 200 199 = 100 := by decide
  refine ⟨?_, ?_, ?_, ?_⟩
  · exact ⟨⟨"h", "", 4, "project", ""⟩, by simp, by simp⟩
  · intro a ha
    obtain ⟨id, hid, hida⟩ := List.mem_map.mp ha
    rw [← hida]
    unfold renderedIds renderedNodes
    refine List.mem_map.mpr ⟨⟨id, "", 1, "concept", ""⟩, ?_, rfl⟩
    apply List.mem_filter.mpr
    constructor
    · apply List.mem_append_left
      obtain ⟨i, hi, hrep⟩ := List.mem_map.mp hid
      exact List.mem_map.mpr ⟨i, hi, by rw [hrep]⟩
    · simp
  · have hflag : (runUpdates 200 true true ⟨[], false, 0⟩
        (((List.range 199).map (fun i => "n" ++ Nat.repr i)).map
          (fun id => (id, true)))).hasTriggeredCompletion = true := by
      obtain ⟨s2, hs2⟩ := runUpdates_is_effect 200 true true ⟨[], false, 0⟩
        (((List.range 199).map (fun i => "n" ++ Nat.repr i)).map (fun id => (id, true)))
      rw [hs2]
      apply completionEffect_postcondition 200 s2 _ (by omega)
      have hmap2 : s2.completedNodes
          = ((List.range 199).map (fun i => "n" ++ Nat.repr i)).map (fun id => (id, true)) := by
        have heq := completionEffect_completedNodes 200 true true s2
        rw [← heq, ← hs2, hmap]
      rw [hmap2]
      have := completedCount_all_true ((List.range 199).map (fun i => "n" ++ Nat.repr i))
      rw [this]
      simpa using h100
    have hinv := runUpdates_TrigInv 200 true true ⟨[], false, 0⟩
      (((List.range 199).map (fun i => "n" ++ Nat.repr i)).map (fun id => (id, true))) rfl
    unfold TrigInv at hinv
    rw [hinv, hflag]
    simp
  · rw [hmap]
    apply getKey_eq_false_of_not_mem_keys
    have hnotin : "h" ∉ (List.range 199).map (fun i => "n" ++ Nat.repr i) := by
      set_option maxRecDepth 100000 in decide
    intro hmem
    apply hnotin
    rw [List.map_map] at hmem
    obtain ⟨id, hid, hideq⟩ := List.mem_map.mp hmem
    have hide2 : id = "h" := by simpa using hideq
    rw [← hide2]
    exact hid
